import Mathlib

/-!
Shallow embedding of the MSQT single-qubit density-matrix engine
(project1a_backend: quantum_state.py, noise.py, gates.py, utils.py, main.py).

Complex 2x2 matrices model the numpy arrays; real numbers stand for Python
floats (the usual exact-arithmetic idealisation of the numeric code).
Fallible lookups (gate_unitary, kraus_operators, run_circuit) return Except,
mirroring the raised ValueError and its message.
-/

open Matrix

namespace MSQT

/-- The fundamental value type: a complex 2x2 matrix (numpy 2x2 complex array). -/
abbrev Mat := Matrix (Fin 2) (Fin 2) ℂ

/-- The ground density matrix |0><0| used by QuantumState.__init__. -/
def ground : Mat := !![1, 0; 0, 0]

/-- quantum_state.py: state plus history of snapshots. -/
structure QuantumState where
  state : Mat
  history : List Mat

/-- QuantumState.__init__(initial_state): ground state when the argument is
absent, and history set to the empty list. -/
def QuantumState.init (initial_state : Option Mat) : QuantumState :=
  { state := initial_state.getD ground, history := [] }

/-- QuantumState.reset: the source calls self.__init__(), re-running the whole
constructor (which also re-initialises the history attribute). -/
def QuantumState.reset (_qs : QuantumState) : QuantumState :=
  QuantumState.init none

/-- QuantumState.apply_gate: state becomes U rho U-dagger, and a snapshot of the
new state is appended to the history. -/
noncomputable def QuantumState.apply_gate (qs : QuantumState) (U : Mat) : QuantumState :=
  let s := U * qs.state * Uᴴ
  { state := s, history := qs.history ++ [s] }

/-- QuantumState.apply_kraus: state becomes the sum of K rho K-dagger over the
given Kraus operators, accumulated from the zero matrix exactly as the Python
loop does, and a snapshot of the new state is appended to the history. -/
noncomputable def QuantumState.apply_kraus (qs : QuantumState) (kraus_ops : List Mat) : QuantumState :=
  let s := kraus_ops.foldl (fun acc K => acc + K * qs.state * Kᴴ) 0
  { state := s, history := qs.history ++ [s] }

/-- main.py X(): Pauli-X gate. -/
def X : Mat := !![0, 1; 1, 0]

/-- main.py Y(): Pauli-Y gate. -/
def Y : Mat := !![0, -Complex.I; Complex.I, 0]

/-- main.py Z(): Pauli-Z gate. -/
def Z : Mat := !![1, 0; 0, -1]

/-- main.py H(): Hadamard gate. -/
noncomputable def H : Mat := ((Real.sqrt 2)⁻¹ : ℂ) • !![1, 1; 1, -1]

/-- main.py Rx(theta). -/
noncomputable def Rx (theta : ℝ) : Mat :=
  !![(Real.cos (theta/2) : ℂ), -Complex.I * (Real.sin (theta/2) : ℂ);
     -Complex.I * (Real.sin (theta/2) : ℂ), (Real.cos (theta/2) : ℂ)]

/-- main.py Ry(theta). -/
noncomputable def Ry (theta : ℝ) : Mat :=
  !![(Real.cos (theta/2) : ℂ), -(Real.sin (theta/2) : ℂ);
     (Real.sin (theta/2) : ℂ), (Real.cos (theta/2) : ℂ)]

/-- main.py Rz(theta). -/
noncomputable def Rz (theta : ℝ) : Mat :=
  !![Complex.exp (-Complex.I * (theta : ℂ) / 2), 0;
     0, Complex.exp (Complex.I * (theta : ℂ) / 2)]

/-- noise.py amplitude_damping(gamma): [K0, K1]. -/
noncomputable def amplitude_damping (gamma : ℝ) : List Mat :=
  [!![1, 0; 0, (Real.sqrt (1 - gamma) : ℂ)],
   !![0, (Real.sqrt gamma : ℂ); 0, 0]]

/-- noise.py phase_damping(lmbda): [K0, K1, K2]. -/
noncomputable def phase_damping (lmbda : ℝ) : List Mat :=
  [(Real.sqrt (1 - lmbda) : ℂ) • (1 : Mat),
   (Real.sqrt lmbda : ℂ) • !![1, 0; 0, 0],
   (Real.sqrt lmbda : ℂ) • !![0, 0; 0, 1]]

/-- noise.py depolarizing(p): [K0, K1, K2, K3]. -/
noncomputable def depolarizing (p : ℝ) : List Mat :=
  [(Real.sqrt (1 - 3*p/4) : ℂ) • (1 : Mat),
   (Real.sqrt (p/4) : ℂ) • X,
   (Real.sqrt (p/4) : ℂ) • Y,
   (Real.sqrt (p/4) : ℂ) • Z]

/-- main.py gate_unitary: resolves a gate name (with optional parameters, here
a key-value list standing for the Python dict) to its unitary, raising
ValueError("Unknown gate: ...") on anything outside the catalog. -/
noncomputable def gate_unitary (name : String) (params : List (String × ℝ)) :
    Except String Mat :=
  if name = "X" then .ok X
  else if name = "Y" then .ok Y
  else if name = "Z" then .ok Z
  else if name = "H" then .ok H
  else if name = "Rx" then .ok (Rx ((params.lookup "theta").getD (Real.pi/2)))
  else if name = "Ry" then .ok (Ry ((params.lookup "theta").getD (Real.pi/2)))
  else if name = "Rz" then .ok (Rz ((params.lookup "theta").getD (Real.pi/2)))
  else .error ("Unknown gate: " ++ name)

/-- main.py kraus_operators: resolves a noise-channel name to its Kraus set,
clamping the numeric parameter to [0,1] exactly as
max(0.0, min(1.0, value)) does, raising
ValueError("Unknown noise channel: ...") on anything outside the catalog. -/
noncomputable def kraus_operators (name : String) (params : List (String × ℝ)) :
    Except String (List Mat) :=
  if name = "amplitude_damping" then
    .ok (amplitude_damping (max 0 (min 1 ((params.lookup "gamma").getD (1/10)))))
  else if name = "phase_damping" then
    .ok (phase_damping (max 0 (min 1 ((params.lookup "lambda").getD (1/10)))))
  else if name = "depolarizing" then
    .ok (depolarizing (max 0 (min 1 ((params.lookup "p").getD (1/20)))))
  else .error ("Unknown noise channel: " ++ name)

/-- main.py bloch_vector_from_rho: the triple of real parts of Tr(rho X),
Tr(rho Y), Tr(rho Z). -/
noncomputable def bloch_vector_from_rho (rho : Mat) : ℝ × ℝ × ℝ :=
  ((rho * X).trace.re, (rho * Y).trace.re, (rho * Z).trace.re)

/-- main.py serialize_density_matrix: row-major nested lists of
(real, imaginary) pairs. -/
def serialize_density_matrix (rho : Mat) : List (List (ℝ × ℝ)) :=
  [[((rho 0 0).re, (rho 0 0).im), ((rho 0 1).re, (rho 0 1).im)],
   [((rho 1 0).re, (rho 1 0).im), ((rho 1 1).re, (rho 1 1).im)]]

/-- main.py Step: a circuit step (the pydantic model, minus the unused id). -/
structure Step where
  type : String
  name : String
  params : List (String × ℝ)

/-- One observation record of the run_circuit response. -/
structure Observation where
  bloch_vector : ℝ × ℝ × ℝ
  density_matrix : List (List (ℝ × ℝ))

/-- Body of the run_circuit loop for one step: dispatch on step.type, resolve
the operator and apply it; an unknown name or step type propagates the error. -/
noncomputable def runStep (qs : QuantumState) (s : Step) : Except String QuantumState :=
  if s.type = "gate" then
    (gate_unitary s.name s.params).map (fun U => qs.apply_gate U)
  else if s.type = "noise" then
    (kraus_operators s.name s.params).map (fun Ks => qs.apply_kraus Ks)
  else .error ("Unsupported step: " ++ s.type)

/-- The run_circuit fold over the remaining steps from a given state: each
applied step contributes one observation record; a raised error aborts the
whole evaluation (the Python exception escapes the handler, so no partial
list of records is returned). -/
noncomputable def run_circuit_aux (qs : QuantumState) :
    List Step → Except String (List Observation)
  | [] => .ok []
  | s :: rest =>
    match runStep qs s with
    | .error e => .error e
    | .ok qs' =>
      match run_circuit_aux qs' rest with
      | .error e => .error e
      | .ok tail =>
        .ok ({ bloch_vector := bloch_vector_from_rho qs'.state,
               density_matrix := serialize_density_matrix qs'.state } :: tail)

/-- main.py run_circuit: start at |0><0| and fold over the submitted steps. -/
noncomputable def run_circuit (steps : List Step) : Except String (List Observation) :=
  run_circuit_aux (QuantumState.init none) steps

/-- The CPTP condition from the spec: the sum of K-dagger K over the Kraus set
equals the identity. -/
noncomputable def krausSum (ks : List Mat) : Mat := (ks.map (fun K => Kᴴ * K)).sum

/-- Folding matrix addition of f over a list, starting from a, is a plus the
sum of the mapped list (the Python accumulation loop as a list sum). -/
lemma foldl_add_eq_sum (f : Mat → Mat) (l : List Mat) (a : Mat) :
    l.foldl (fun acc K => acc + f K) a = a + (l.map f).sum := by
  induction l generalizing a with
  | nil => simp
  | cons K t ih => simp [List.foldl_cons, ih, add_assoc]

/-- The state after apply_kraus is the sum of K rho K-dagger over the list. -/
lemma apply_kraus_state (qs : QuantumState) (ks : List Mat) :
    (qs.apply_kraus ks).state = (ks.map (fun K => K * qs.state * Kᴴ)).sum := by
  simp [QuantumState.apply_kraus, foldl_add_eq_sum]

/-- C1: the code at the failing input. After one apply_gate from ground the
history holds one entry; reset (which re-runs the constructor) returns the
state to ground but also empties the history, contradicting the claim (and
the docstring of reset) that prior history entries survive reset. -/
theorem reset_clears_history_at_failing_input :
    (((QuantumState.init none).apply_gate X).history ≠ []) ∧
    (((QuantumState.init none).apply_gate X).reset).state = ground ∧
    (((QuantumState.init none).apply_gate X).reset).history = [] := by
  exact ⟨by simp [QuantumState.apply_gate], rfl, rfl⟩

/-- C3: apply_gate sets the state to U rho U-dagger and appends exactly one
entry to the history, a by-value snapshot of the new state; a later operation
leaves the recorded prefix untouched. -/
theorem apply_gate_conjugates_and_snapshots (U : Mat) (qs : QuantumState) :
    (qs.apply_gate U).state = U * qs.state * Uᴴ ∧
    (qs.apply_gate U).history = qs.history ++ [U * qs.state * Uᴴ] ∧
    (qs.apply_gate U).history.length = qs.history.length + 1 ∧
    ∀ V : Mat, (((qs.apply_gate U).apply_gate V).history).take
        (qs.apply_gate U).history.length = (qs.apply_gate U).history := by
  refine ⟨rfl, rfl, by simp [QuantumState.apply_gate], ?_⟩
  intro V
  have h : ((qs.apply_gate U).apply_gate V).history
      = (qs.apply_gate U).history ++ [V * (qs.apply_gate U).state * Vᴴ] := rfl
  rw [h, List.take_left]

/-- C4: on a non-empty Kraus list, apply_kraus sets the state to the sum of
K rho K-dagger and appends exactly one snapshot of that state to the history. -/
theorem apply_kraus_sums_and_snapshots (ks : List Mat) (qs : QuantumState)
    (_hne : ks ≠ []) :
    (qs.apply_kraus ks).state = (ks.map (fun K => K * qs.state * Kᴴ)).sum ∧
    (qs.apply_kraus ks).history
      = qs.history ++ [(ks.map (fun K => K * qs.state * Kᴴ)).sum] ∧
    (qs.apply_kraus ks).history.length = qs.history.length + 1 := by
  refine ⟨apply_kraus_state qs ks, ?_, by simp [QuantumState.apply_kraus]⟩
  simp [QuantumState.apply_kraus, foldl_add_eq_sum]

/-- Witness for C4 at the concrete one-element Kraus list [I] and the freshly
initialised state. -/
theorem apply_kraus_sums_and_snapshots_witness :
    (([(1 : Mat)] : List Mat) ≠ []) ∧
    (((QuantumState.init none).apply_kraus [1]).state
        = (([(1 : Mat)]).map
            (fun K => K * (QuantumState.init none).state * Kᴴ)).sum ∧
      ((QuantumState.init none).apply_kraus [1]).history
        = (QuantumState.init none).history
          ++ [(([(1 : Mat)]).map
                (fun K => K * (QuantumState.init none).state * Kᴴ)).sum] ∧
      ((QuantumState.init none).apply_kraus [1]).history.length
        = (QuantumState.init none).history.length + 1) :=
  ⟨by simp, apply_kraus_sums_and_snapshots [1] (QuantumState.init none) (by simp)⟩

/-- C10: apply_kraus on the empty list succeeds and sets the state to the zero
matrix (trace 0, hence not a density matrix), appending that zero matrix to
the history. -/
theorem apply_kraus_nil_zero (qs : QuantumState) :
    (qs.apply_kraus []).state = 0 ∧
    (qs.apply_kraus []).history = qs.history ++ [0] ∧
    (qs.apply_kraus []).state.trace = 0 ∧
    (qs.apply_kraus []).state.trace ≠ 1 := by
  refine ⟨rfl, rfl, by simp [QuantumState.apply_kraus], ?_⟩
  simp [QuantumState.apply_kraus]

/-- Resolving the name Identity hits the fall-through branch of gate_unitary. -/
lemma gate_unitary_Identity (ps : List (String × ℝ)) :
    gate_unitary "Identity" ps = .error "Unknown gate: Identity" := by
  simp [gate_unitary]

/-- C2 counterexample: resolving the gate name Identity does not succeed; the
catalog (X, Y, Z, H, Rx, Ry, Rz) has no Identity entry and gate_unitary
raises the unknown-gate error instead of returning [[1,0],[0,1]]. -/
theorem gate_Identity_not_in_catalog :
    gate_unitary "Identity" [] = .error "Unknown gate: Identity" ∧
    gate_unitary "Identity" [] ≠ .ok !![1, 0; 0, 1] := by
  refine ⟨gate_unitary_Identity [], ?_⟩
  rw [gate_unitary_Identity]
  simp

/-- C2 amended: the catalog has no Identity fixed gate — resolving Identity
fails with an error naming the offender — while applying the identity matrix
[[1,0],[0,1]] after reset leaves the density matrix unchanged, exactly. -/
theorem identity_gate_amended (ps : List (String × ℝ)) (qs : QuantumState) :
    gate_unitary "Identity" ps = .error "Unknown gate: Identity" ∧
    ((qs.reset).apply_gate !![1, 0; 0, 1]).state = (qs.reset).state := by
  refine ⟨gate_unitary_Identity ps, ?_⟩
  have h1 : (!![1, 0; 0, 1] : Mat) = 1 := Matrix.one_fin_two.symm
  show (!![1, 0; 0, 1] : Mat) * (qs.reset).state * (!![1, 0; 0, 1] : Mat)ᴴ
      = (qs.reset).state
  rw [h1]
  simp

/-- kraus_operators on amplitude_damping with an explicit gamma. -/
lemma kraus_operators_ad (x : ℝ) :
    kraus_operators "amplitude_damping" [("gamma", x)]
      = .ok (amplitude_damping (max 0 (min 1 x))) := by
  simp [kraus_operators, List.lookup]

/-- kraus_operators on phase_damping with an explicit lambda. -/
lemma kraus_operators_pd (x : ℝ) :
    kraus_operators "phase_damping" [("lambda", x)]
      = .ok (phase_damping (max 0 (min 1 x))) := by
  simp [kraus_operators, List.lookup]

/-- kraus_operators on depolarizing with an explicit p. -/
lemma kraus_operators_dp (x : ℝ) :
    kraus_operators "depolarizing" [("p", x)]
      = .ok (depolarizing (max 0 (min 1 x))) := by
  simp [kraus_operators, List.lookup]

/-- C7: out-of-range noise parameters are clamped to [0,1], never rejected:
resolution succeeds for every parameter value of each catalog channel, and
1.5 produces exactly the Kraus set of the endpoint 1 while -0.3 produces the
set of the endpoint 0 (so the resulting state is the same as well). -/
theorem noise_params_clamped :
    (∀ x : ℝ, (kraus_operators "amplitude_damping" [("gamma", x)]).isOk
      ∧ (kraus_operators "phase_damping" [("lambda", x)]).isOk
      ∧ (kraus_operators "depolarizing" [("p", x)]).isOk) ∧
    kraus_operators "amplitude_damping" [("gamma", 3/2)]
      = kraus_operators "amplitude_damping" [("gamma", 1)] ∧
    kraus_operators "amplitude_damping" [("gamma", -(3/10))]
      = kraus_operators "amplitude_damping" [("gamma", 0)] ∧
    kraus_operators "phase_damping" [("lambda", 3/2)]
      = kraus_operators "phase_damping" [("lambda", 1)] ∧
    kraus_operators "phase_damping" [("lambda", -(3/10))]
      = kraus_operators "phase_damping" [("lambda", 0)] ∧
    kraus_operators "depolarizing" [("p", 3/2)]
      = kraus_operators "depolarizing" [("p", 1)] ∧
    kraus_operators "depolarizing" [("p", -(3/10))]
      = kraus_operators "depolarizing" [("p", 0)] ∧
    ∀ qs : QuantumState,
      qs.apply_kraus (amplitude_damping (max 0 (min 1 (3/2))))
        = qs.apply_kraus (amplitude_damping 1) := by
  have hhi : max (0:ℝ) (min 1 (3/2)) = 1 := by norm_num
  have hlo : max (0:ℝ) (min 1 (-(3/10))) = 0 := by norm_num
  have h1 : max (0:ℝ) (min 1 1) = 1 := by norm_num
  have h0 : max (0:ℝ) (min 1 0) = 0 := by norm_num
  refine ⟨fun x => ⟨?_, ?_, ?_⟩, ?_, ?_, ?_, ?_, ?_, ?_, ?_⟩
  · rw [kraus_operators_ad]; rfl
  · rw [kraus_operators_pd]; rfl
  · rw [kraus_operators_dp]; rfl
  · rw [kraus_operators_ad, kraus_operators_ad, hhi, h1]
  · rw [kraus_operators_ad, kraus_operators_ad, hlo, h0]
  · rw [kraus_operators_pd, kraus_operators_pd, hhi, h1]
  · rw [kraus_operators_pd, kraus_operators_pd, hlo, h0]
  · rw [kraus_operators_dp, kraus_operators_dp, hhi, h1]
  · rw [kraus_operators_dp, kraus_operators_dp, hlo, h0]
  · intro qs; rw [hhi]

/-- The amplitude-damping Kraus pair satisfies the CPTP condition on [0,1]. -/
lemma cptp_amplitude_damping (x : ℝ) (h0 : 0 ≤ x) (h1 : x ≤ 1) :
    krausSum (amplitude_damping x) = 1 := by
  have e1 : Real.sqrt (1 - x) * Real.sqrt (1 - x) = 1 - x :=
    Real.mul_self_sqrt (by linarith)
  have e2 : Real.sqrt x * Real.sqrt x = x := Real.mul_self_sqrt h0
  unfold krausSum amplitude_damping
  ext i j
  fin_cases i <;> fin_cases j <;>
    simp [Matrix.mul_apply, Fin.sum_univ_two, Matrix.conjTranspose_apply,
      Matrix.one_apply, ← Complex.ofReal_mul, e1, e2]

/-- The phase-damping Kraus triple satisfies the CPTP condition on [0,1]. -/
lemma cptp_phase_damping (x : ℝ) (h0 : 0 ≤ x) (h1 : x ≤ 1) :
    krausSum (phase_damping x) = 1 := by
  have e1 : Real.sqrt (1 - x) * Real.sqrt (1 - x) = 1 - x :=
    Real.mul_self_sqrt (by linarith)
  have e2 : Real.sqrt x * Real.sqrt x = x := Real.mul_self_sqrt h0
  unfold krausSum phase_damping
  ext i j
  fin_cases i <;> fin_cases j <;>
    simp [Matrix.mul_apply, Fin.sum_univ_two, Matrix.conjTranspose_apply,
      Matrix.one_apply, Matrix.smul_apply, ← Complex.ofReal_mul, e1, e2]

/-- The depolarizing Kraus quadruple satisfies the CPTP condition on [0,1]. -/
lemma cptp_depolarizing (x : ℝ) (h0 : 0 ≤ x) (h1 : x ≤ 1) :
    krausSum (depolarizing x) = 1 := by
  have e1 : Real.sqrt (1 - 3*x/4) * Real.sqrt (1 - 3*x/4) = 1 - 3*x/4 :=
    Real.mul_self_sqrt (by linarith)
  have e2 : Real.sqrt (x/4) * Real.sqrt (x/4) = x/4 :=
    Real.mul_self_sqrt (by linarith)
  have f1 : ((Real.sqrt x : ℂ))^2 = (x:ℂ) := by
    rw [← Complex.ofReal_pow, Real.sq_sqrt h0]
  have f2 : ((Real.sqrt 4 : ℂ))⁻¹^2 = (4:ℂ)⁻¹ := by
    have : Real.sqrt 4 = 2 := by
      rw [show (4:ℝ) = 2^2 by norm_num, Real.sqrt_sq (by norm_num)]
    rw [this]
    norm_num
  unfold krausSum depolarizing X Y Z
  ext i j
  fin_cases i <;> fin_cases j <;>
    simp [Matrix.mul_apply, Fin.sum_univ_two, Matrix.conjTranspose_apply,
      Matrix.one_apply, Matrix.smul_apply, ← Complex.ofReal_mul, e1, e2] <;>
    ring_nf <;> rw [f1, f2, Complex.I_sq] <;> push_cast <;> ring

/-- C5: for every parameter in [0,1], each of the three channel constructors
returns a Kraus set whose sum of K-dagger K is the identity. -/
theorem channels_cptp (x : ℝ) (h0 : 0 ≤ x) (h1 : x ≤ 1) :
    krausSum (amplitude_damping x) = 1 ∧
    krausSum (phase_damping x) = 1 ∧
    krausSum (depolarizing x) = 1 :=
  ⟨cptp_amplitude_damping x h0 h1, cptp_phase_damping x h0 h1,
   cptp_depolarizing x h0 h1⟩

/-- Witness for C5 at the concrete parameter 1/2. -/
theorem channels_cptp_witness :
    (0:ℝ) ≤ 1/2 ∧ (1/2:ℝ) ≤ 1 ∧
    (krausSum (amplitude_damping (1/2)) = 1 ∧
     krausSum (phase_damping (1/2)) = 1 ∧
     krausSum (depolarizing (1/2)) = 1) :=
  ⟨by norm_num, by norm_num, channels_cptp (1/2) (by norm_num) (by norm_num)⟩

/-- Trace distributes over a list sum of matrices. -/
lemma trace_list_sum (l : List Mat) :
    l.sum.trace = (l.map Matrix.trace).sum := by
  induction l with
  | nil => simp
  | cons a t ih => simp [ih]

/-- Conjugate transposition distributes over a list sum of matrices. -/
lemma conjTranspose_list_sum (l : List Mat) :
    (l.sum)ᴴ = (l.map (fun A => Aᴴ)).sum := by
  induction l with
  | nil => simp
  | cons a t ih => simp [ih]

/-- Right multiplication distributes over a list sum of matrices. -/
lemma list_sum_mul (l : List Mat) (B : Mat) :
    (l.map (fun A => A * B)).sum = l.sum * B := by
  induction l with
  | nil => simp
  | cons a t ih => simp [ih, add_mul]

/-- apply_gate by a unitary preserves the trace. -/
lemma apply_gate_trace (qs : QuantumState) (U : Mat) (hU : U * Uᴴ = 1) :
    (qs.apply_gate U).state.trace = qs.state.trace := by
  have hU' : Uᴴ * U = 1 := Matrix.mul_eq_one_comm.mp hU
  show (U * qs.state * Uᴴ).trace = qs.state.trace
  rw [Matrix.trace_mul_cycle, hU', Matrix.one_mul]

/-- apply_gate preserves Hermiticity. -/
lemma apply_gate_herm (qs : QuantumState) (U : Mat)
    (hH : qs.stateᴴ = qs.state) :
    (qs.apply_gate U).stateᴴ = (qs.apply_gate U).state := by
  show (U * qs.state * Uᴴ)ᴴ = U * qs.state * Uᴴ
  simp [Matrix.conjTranspose_mul, hH, Matrix.mul_assoc]

/-- apply_kraus with a CPTP Kraus set preserves the trace. -/
lemma apply_kraus_trace (qs : QuantumState) (ks : List Mat)
    (hK : krausSum ks = 1) :
    (qs.apply_kraus ks).state.trace = qs.state.trace := by
  rw [apply_kraus_state, trace_list_sum, List.map_map]
  have h1 : (Matrix.trace ∘ fun K => K * qs.state * Kᴴ)
      = fun K => ((Kᴴ * K) * qs.state).trace := by
    funext K
    show (K * qs.state * Kᴴ).trace = ((Kᴴ * K) * qs.state).trace
    rw [Matrix.trace_mul_cycle]
  rw [h1]
  have h2 : (ks.map fun K => ((Kᴴ * K) * qs.state).trace)
      = (((ks.map fun K => Kᴴ * K).map (fun M => M * qs.state)).map
          Matrix.trace) := by
    rw [List.map_map, List.map_map]
    rfl
  rw [h2, ← trace_list_sum, list_sum_mul]
  have h3 : (ks.map fun K => Kᴴ * K).sum = 1 := hK
  rw [h3, Matrix.one_mul]

/-- apply_kraus preserves Hermiticity. -/
lemma apply_kraus_herm (qs : QuantumState) (ks : List Mat)
    (hH : qs.stateᴴ = qs.state) :
    (qs.apply_kraus ks).stateᴴ = (qs.apply_kraus ks).state := by
  rw [apply_kraus_state, conjTranspose_list_sum, List.map_map]
  have h1 : ((fun A => Aᴴ) ∘ fun K => K * qs.state * Kᴴ)
      = fun K => K * qs.state * Kᴴ := by
    funext K
    show (K * qs.state * Kᴴ)ᴴ = K * qs.state * Kᴴ
    simp [Matrix.conjTranspose_mul, hH, Matrix.mul_assoc]
  rw [h1]

/-- C6: from any Hermitian, trace-1 state, apply_gate with a unitary yields a
Hermitian, trace-1 state, and apply_kraus with any CPTP Kraus set does too. -/
theorem transformations_preserve_invariants (qs : QuantumState)
    (hH : qs.stateᴴ = qs.state) (ht : qs.state.trace = 1) :
    (∀ U : Mat, U * Uᴴ = 1 →
      ((qs.apply_gate U).stateᴴ = (qs.apply_gate U).state ∧
       (qs.apply_gate U).state.trace = 1)) ∧
    (∀ ks : List Mat, krausSum ks = 1 →
      ((qs.apply_kraus ks).stateᴴ = (qs.apply_kraus ks).state ∧
       (qs.apply_kraus ks).state.trace = 1)) := by
  refine ⟨fun U hU => ⟨apply_gate_herm qs U hH, ?_⟩,
          fun ks hK => ⟨apply_kraus_herm qs ks hH, ?_⟩⟩
  · rw [apply_gate_trace qs U hU, ht]
  · rw [apply_kraus_trace qs ks hK, ht]

/-- Witness for C6 at the freshly initialised ground state, the Pauli-X gate
and the one-element Kraus set [I]. -/
theorem transformations_preserve_invariants_witness :
    ((QuantumState.init none).stateᴴ = (QuantumState.init none).state) ∧
    ((QuantumState.init none).state.trace = 1) ∧
    (X * Xᴴ = 1) ∧ (krausSum [(1 : Mat)] = 1) ∧
    (((QuantumState.init none).apply_gate X).stateᴴ
        = ((QuantumState.init none).apply_gate X).state ∧
     ((QuantumState.init none).apply_gate X).state.trace = 1) ∧
    (((QuantumState.init none).apply_kraus [1]).stateᴴ
        = ((QuantumState.init none).apply_kraus [1]).state ∧
     ((QuantumState.init none).apply_kraus [1]).state.trace = 1) := by
  have hH : (QuantumState.init none).stateᴴ = (QuantumState.init none).state := by
    show groundᴴ = ground
    ext i j
    fin_cases i <;> fin_cases j <;>
      simp [ground, Matrix.conjTranspose_apply]
  have ht : (QuantumState.init none).state.trace = 1 := by
    show ground.trace = 1
    rw [Matrix.trace_fin_two]
    simp [ground]
  have hU : X * Xᴴ = 1 := by
    ext i j
    fin_cases i <;> fin_cases j <;>
      simp [X, Matrix.mul_apply, Fin.sum_univ_two, Matrix.conjTranspose_apply,
        Matrix.one_apply]
  have hK : krausSum [(1 : Mat)] = 1 := by
    simp [krausSum]
  exact ⟨hH, ht, hU, hK,
    (transformations_preserve_invariants _ hH ht).1 X hU,
    (transformations_preserve_invariants _ hH ht).2 [1] hK⟩

/-- Conjugation by X swaps the two diagonal and the two off-diagonal entries. -/
lemma conj_X (rho : Mat) :
    X * rho * Xᴴ = !![rho 1 1, rho 1 0; rho 0 1, rho 0 0] := by
  ext i j
  fin_cases i <;> fin_cases j <;>
    simp [X, Matrix.mul_apply, Fin.sum_univ_two, Matrix.conjTranspose_apply,
      Matrix.vecMul, Matrix.dotProduct]

/-- Conjugation by Y swaps the diagonal and negates the off-diagonal entries. -/
lemma conj_Y (rho : Mat) :
    Y * rho * Yᴴ = !![rho 1 1, -(rho 1 0); -(rho 0 1), rho 0 0] := by
  ext i j
  fin_cases i <;> fin_cases j <;>
    simp [Y, Matrix.mul_apply, Fin.sum_univ_two, Matrix.conjTranspose_apply,
      Matrix.vecMul, Matrix.dotProduct] <;>
    ring_nf <;> simp [Complex.I_sq]

/-- Conjugation by Z negates the off-diagonal entries. -/
lemma conj_Z (rho : Mat) :
    Z * rho * Zᴴ = !![rho 0 0, -(rho 0 1); -(rho 1 0), rho 1 1] := by
  ext i j
  fin_cases i <;> fin_cases j <;>
    simp [Z, Matrix.mul_apply, Fin.sum_univ_two, Matrix.conjTranspose_apply,
      Matrix.vecMul, Matrix.dotProduct]

/-- C9: applying the depolarizing channel at p = 1 via apply_kraus to any pure
density matrix (Hermitian, trace 1, rho squared = rho) yields the maximally
mixed state [[1/2,0],[0,1/2]]. -/
theorem depolarizing_one_yields_maximally_mixed (qs : QuantumState)
    (_hH : qs.stateᴴ = qs.state) (ht : qs.state.trace = 1)
    (_hp : qs.state * qs.state = qs.state) :
    (qs.apply_kraus (depolarizing 1)).state
      = !![(1/2 : ℂ), 0; 0, (1/2 : ℂ)] := by
  have e : Real.sqrt (1 - 3*1/4) = 1/2 := by
    rw [show (1:ℝ) - 3*1/4 = (1/2)^2 by norm_num,
      Real.sqrt_sq (by norm_num : (0:ℝ) ≤ 1/2)]
  have e' : Real.sqrt (1/4) = 1/2 := by
    rw [show (1:ℝ)/4 = (1/2)^2 by norm_num,
      Real.sqrt_sq (by norm_num : (0:ℝ) ≤ 1/2)]
  have hdep : depolarizing 1
      = [((1/2 : ℝ) : ℂ) • 1, ((1/2 : ℝ) : ℂ) • X,
         ((1/2 : ℝ) : ℂ) • Y, ((1/2 : ℝ) : ℂ) • Z] := by
    unfold depolarizing
    rw [e, e']
  rw [apply_kraus_state, hdep]
  have hs : ∀ A : Mat,
      ((((1/2 : ℝ) : ℂ) • A) * qs.state * ((((1/2 : ℝ) : ℂ)) • A)ᴴ)
        = (((1/2 : ℝ) : ℂ) * ((1/2 : ℝ) : ℂ)) • (A * qs.state * Aᴴ) := by
    intro A
    rw [Matrix.conjTranspose_smul, Matrix.smul_mul, Matrix.mul_smul,
      Matrix.smul_mul, smul_smul]
    congr 1
    simp [Complex.star_def, Complex.conj_ofReal]
  simp only [List.map_cons, List.map_nil, List.sum_cons, List.sum_nil,
    add_zero, hs]
  rw [conj_X, conj_Y, conj_Z, Matrix.one_mul, Matrix.conjTranspose_one,
    Matrix.mul_one]
  have htr : qs.state 0 0 + qs.state 1 1 = 1 := by
    rw [Matrix.trace_fin_two] at ht
    exact ht
  ext i j
  fin_cases i <;> fin_cases j <;>
    simp [Matrix.add_apply, Matrix.smul_apply] <;>
    linear_combination (1/2 : ℂ) * htr

/-- Witness for C9 at the pure ground state. -/
theorem depolarizing_one_yields_maximally_mixed_witness :
    ((QuantumState.init none).stateᴴ = (QuantumState.init none).state) ∧
    ((QuantumState.init none).state.trace = 1) ∧
    ((QuantumState.init none).state * (QuantumState.init none).state
        = (QuantumState.init none).state) ∧
    ((QuantumState.init none).apply_kraus (depolarizing 1)).state
      = !![(1/2 : ℂ), 0; 0, (1/2 : ℂ)] := by
  have hH : (QuantumState.init none).stateᴴ = (QuantumState.init none).state := by
    show groundᴴ = ground
    ext i j
    fin_cases i <;> fin_cases j <;>
      simp [ground, Matrix.conjTranspose_apply]
  have ht : (QuantumState.init none).state.trace = 1 := by
    show ground.trace = 1
    rw [Matrix.trace_fin_two]
    simp [ground]
  have hp : (QuantumState.init none).state * (QuantumState.init none).state
      = (QuantumState.init none).state := by
    show ground * ground = ground
    ext i j
    fin_cases i <;> fin_cases j <;>
      simp [ground, Matrix.mul_apply, Fin.sum_univ_two]
  exact ⟨hH, ht, hp,
    depolarizing_one_yields_maximally_mixed (QuantumState.init none) hH ht hp⟩

/-- A gate name outside the catalog hits the fall-through error branch. -/
lemma gate_unitary_unknown (name : String) (ps : List (String × ℝ))
    (h : name ∉ (["X", "Y", "Z", "H", "Rx", "Ry", "Rz"] : List String)) :
    gate_unitary name ps = .error ("Unknown gate: " ++ name) := by
  simp only [List.mem_cons, List.mem_singleton, not_or] at h
  obtain ⟨h1, h2, h3, h4, h5, h6, h7⟩ := h
  simp [gate_unitary, h1, h2, h3, h4, h5, h6, h7]

/-- A channel name outside the catalog hits the fall-through error branch. -/
lemma kraus_operators_unknown (name : String) (ps : List (String × ℝ))
    (h : name ∉ (["amplitude_damping", "phase_damping", "depolarizing"] :
        List String)) :
    kraus_operators name ps = .error ("Unknown noise channel: " ++ name) := by
  simp only [List.mem_cons, List.mem_singleton, not_or] at h
  obtain ⟨h1, h2, h3⟩ := h
  simp [kraus_operators, h1, h2, h3]

/-- A step whose resolution always fails makes the circuit evaluation abort
with that error, independently of the steps after it: the run on the steps up
to and including the offender gives the same error as the full run. -/
lemma run_aux_fail (s : Step)
    (hfail : ∀ qs : QuantumState, ∃ e, runStep qs s = .error e) :
    ∀ (pre post : List Step) (qs : QuantumState),
      ∃ e, run_circuit_aux qs (pre ++ s :: post) = .error e ∧
        run_circuit_aux qs (pre ++ [s]) = .error e := by
  intro pre
  induction pre with
  | nil =>
    intro post qs
    obtain ⟨e, he⟩ := hfail qs
    exact ⟨e, by simp [run_circuit_aux, he], by simp [run_circuit_aux, he]⟩
  | cons p t ih =>
    intro post qs
    cases hq : runStep qs p with
    | error e =>
      exact ⟨e, by simp [run_circuit_aux, hq], by simp [run_circuit_aux, hq]⟩
    | ok qs' =>
      obtain ⟨e, h1, h2⟩ := ih post qs'
      exact ⟨e, by simp [run_circuit_aux, hq, h1],
        by simp [run_circuit_aux, hq, h2]⟩

/-- C8: a step naming a gate or channel outside the catalog resolves to an
error that names the offender and its expected kind, and the circuit
evaluation aborts: the result equals the run that stops at the offending step
and is an error, so no later step is applied and no observation list is
returned for the failing or later steps. -/
theorem unknown_operator_aborts (s : Step) (pre post : List Step) :
    (s.type = "gate" →
      s.name ∉ (["X", "Y", "Z", "H", "Rx", "Ry", "Rz"] : List String) →
      gate_unitary s.name s.params = .error ("Unknown gate: " ++ s.name) ∧
      run_circuit (pre ++ s :: post) = run_circuit (pre ++ [s]) ∧
      ∃ e, run_circuit (pre ++ s :: post) = .error e) ∧
    (s.type = "noise" →
      s.name ∉ (["amplitude_damping", "phase_damping", "depolarizing"] :
          List String) →
      kraus_operators s.name s.params
        = .error ("Unknown noise channel: " ++ s.name) ∧
      run_circuit (pre ++ s :: post) = run_circuit (pre ++ [s]) ∧
      ∃ e, run_circuit (pre ++ s :: post) = .error e) := by
  constructor
  · intro hty hname
    have hg := gate_unitary_unknown s.name s.params hname
    have hfail : ∀ qs : QuantumState, ∃ e, runStep qs s = .error e := by
      intro qs
      exact ⟨"Unknown gate: " ++ s.name, by simp [runStep, hty, hg, Except.map]⟩
    obtain ⟨e, h1, h2⟩ := run_aux_fail s hfail pre post (QuantumState.init none)
    exact ⟨hg, by rw [run_circuit, run_circuit, h1, h2], ⟨e, h1⟩⟩
  · intro hty hname
    have hk := kraus_operators_unknown s.name s.params hname
    have hfail : ∀ qs : QuantumState, ∃ e, runStep qs s = .error e := by
      intro qs
      refine ⟨"Unknown noise channel: " ++ s.name, ?_⟩
      by_cases hg : s.type = "gate"
      · rw [hty] at hg
        exact absurd hg (by decide)
      · simp [runStep, hty, hk, Except.map]
    obtain ⟨e, h1, h2⟩ := run_aux_fail s hfail pre post (QuantumState.init none)
    exact ⟨hk, by rw [run_circuit, run_circuit, h1, h2], ⟨e, h1⟩⟩

/-- Witness for C8: an unknown gate name Foo and an unknown channel name Bar,
each followed by a further valid step that is never reached. -/
theorem unknown_operator_aborts_witness :
    ((("Foo" : String) ∉ (["X", "Y", "Z", "H", "Rx", "Ry", "Rz"] :
        List String)) ∧
      (gate_unitary "Foo" [] = .error ("Unknown gate: " ++ "Foo") ∧
       run_circuit ([] ++ (⟨"gate", "Foo", []⟩ : Step)
            :: [(⟨"gate", "X", []⟩ : Step)])
          = run_circuit ([] ++ [(⟨"gate", "Foo", []⟩ : Step)]) ∧
       ∃ e, run_circuit ([] ++ (⟨"gate", "Foo", []⟩ : Step)
            :: [(⟨"gate", "X", []⟩ : Step)]) = .error e)) ∧
    ((("Bar" : String) ∉ (["amplitude_damping", "phase_damping",
        "depolarizing"] : List String)) ∧
      (kraus_operators "Bar" [] = .error ("Unknown noise channel: " ++ "Bar") ∧
       run_circuit ([] ++ (⟨"noise", "Bar", []⟩ : Step)
            :: [(⟨"gate", "X", []⟩ : Step)])
          = run_circuit ([] ++ [(⟨"noise", "Bar", []⟩ : Step)]) ∧
       ∃ e, run_circuit ([] ++ (⟨"noise", "Bar", []⟩ : Step)
            :: [(⟨"gate", "X", []⟩ : Step)]) = .error e)) :=
  ⟨⟨by decide,
    (unknown_operator_aborts ⟨"gate", "Foo", []⟩ [] [⟨"gate", "X", []⟩]).1
      rfl (by decide)⟩,
   ⟨by decide,
    (unknown_operator_aborts ⟨"noise", "Bar", []⟩ [] [⟨"gate", "X", []⟩]).2
      rfl (by decide)⟩⟩

end MSQT
